import Mathlib

/-!
Verification of the ECG pocket project: a shallow embedding of
`generator.py` (the `ECGSimulator` signal synthesizer) and
`pocket-server.py` (the `ECGDataReceiver` batch transmitter), with
theorems settling the specification claims about them.

Conventions: NumPy float arithmetic is modelled exactly, with `ℚ` for the
time axis (whose claims are about exact spacing) and `ℝ` for the signal
(whose definition uses the exponential function).  Python `int()` on the
positive values involved is the floor.  The stochastic noise term
`np.random.normal(0, noise_level, shape)` is identically zero at noise
level 0, which is the regime all signal-value claims quantify over, so
the noise-free accumulator `signalBase` is the object of study.
-/

namespace ECG

namespace ECGSimulator

/-- Number of samples in one window: `int(duration * sampling_rate)` from
`ECGSimulator.__init__` (truncation toward zero; for the positive values
the claims quantify over this is the floor). -/
def numSamples (duration samplingRate : ℚ) : ℕ :=
  (Int.floor (duration * samplingRate)).toNat

/-- The time axis `np.linspace(0, duration, numSamples, endpoint=False)`
from `ECGSimulator.__init__`: points `k * (duration / N)` for
`k = 0 .. N-1`. -/
def timeAxis (duration samplingRate : ℚ) : List ℚ :=
  (List.range (numSamples duration samplingRate)).map
    (fun (k : ℕ) => (k : ℚ) * (duration / (numSamples duration samplingRate : ℚ)))

/-- `ECGSimulator._gaussian_wave`:
`amplitude * np.exp(-((x - center)**2) / (2 * width**2))`. -/
noncomputable def gaussianWave (x center amplitude width : ℝ) : ℝ :=
  amplitude * Real.exp (-((x - center) ^ 2) / (2 * width ^ 2))

/-- `ECGSimulator._qrs_complex`: a Q wave at `center - 0.05` with
amplitude `-0.5` and width `0.02`, an R wave at `center` with the given
amplitude (default `1.0`) and width `0.03`, and an S wave at
`center + 0.05` with amplitude `-0.3` and width `0.02`. -/
noncomputable def qrsComplex (x center : ℝ) (amplitude : ℝ := 1) : ℝ :=
  gaussianWave x (center - 0.05) (-0.5) 0.02
    + gaussianWave x center amplitude 0.03
    + gaussianWave x (center + 0.05) (-0.3) 0.02

/-- Number of beat cycles: `int(beats)` with
`beats = duration * (heart_rate / 60)` from
`ECGSimulator._generate_ecg_signal`.  For nonpositive `beats`,
`range(int(beats))` is empty, as is `List.range` of `toNat` here. -/
noncomputable def numBeats (duration heartRate : ℝ) : ℕ :=
  (Int.floor (duration * (heartRate / 60))).toNat

/-- The noise-free accumulator `signal_base` of
`ECGSimulator._generate_ecg_signal`, as a function of the time point `x`:
the sum of the P-wave loop, the QRS-complex loop and the T-wave loop,
each running over beat indices `0 .. int(beats) - 1` with cycle center
`i * 60 / heart_rate`. -/
noncomputable def signalBase (duration heartRate : ℝ) (x : ℝ) : ℝ :=
  (∑ i in Finset.range (numBeats duration heartRate),
      gaussianWave x ((i : ℝ) * 60 / heartRate) 0.1 0.1)
  + (∑ i in Finset.range (numBeats duration heartRate),
      qrsComplex x ((i : ℝ) * 60 / heartRate))
  + (∑ i in Finset.range (numBeats duration heartRate),
      gaussianWave x ((i : ℝ) * 60 / heartRate + 0.4) (-0.3) 0.15)

/-- The full generated signal `signal_base + noise` from
`ECGSimulator._generate_ecg_signal`; the noise function is the sampled
`np.random.normal(0, noise_level, ...)` draw, identically `0` when the
noise level is `0`. -/
noncomputable def generateEcgSignal (duration heartRate : ℝ) (noise : ℝ → ℝ)
    (x : ℝ) : ℝ :=
  signalBase duration heartRate x + noise x

end ECGSimulator

namespace ECGDataReceiver

/-- A JSON-able field value of an outbound record: a string or a float. -/
inductive Value
  | str (s : String)
  | num (q : ℚ)
deriving DecidableEq

/-- One CSV row of the record log.  `float(row['time'])` and
`float(row['ecg_signal'])` can each raise on a malformed row; a field is
`none` exactly when its parse raises. -/
structure Row where
  timeVal : Option ℚ
  ecgVal : Option ℚ
deriving DecidableEq

/-- An outbound record: the dict built in `read_csv_data`, as an ordered
list of key/value pairs. -/
abbrev Record := List (String × Value)

/-- The dict construction inside the `read_csv_data` loop:
`{'timestamp': now, 'time': float(row['time']),
'ecg_signal': float(row['ecg_signal'])}`; `none` when a float conversion
raises.  `now` is the `datetime.datetime.now().isoformat()` string. -/
def parseRow (now : String) (r : Row) : Option Record :=
  match r.timeVal, r.ecgVal with
  | some t, some e =>
      some [("timestamp", Value.str now), ("time", Value.num t),
            ("ecg_signal", Value.num e)]
  | _, _ => none

/-- The row loop of `read_csv_data`: rows are appended in order; the
first row whose parse raises aborts the whole loop (`none`, the
`except Exception` branch). -/
def readRowsOpt (now : String) : List Row → Option (List Record)
  | [] => some []
  | r :: rs =>
      match parseRow now r with
      | none => none
      | some record => (readRowsOpt now rs).map (fun l => record :: l)

/-- `ECGDataReceiver.read_csv_data`: a missing file
(`except FileNotFoundError`) and any row exception
(`except Exception`) both return `[]`; otherwise all rows are returned in
order.  `file` is `none` when the CSV file does not exist. -/
def readCsvData (file : Option (List Row)) (now : String) : List Record :=
  match file with
  | none => []
  | some rows => (readRowsOpt now rows).getD []

/-- Observable events of one `process_data_thread` run: the initial
`read_csv_data` call and each `send_data_to_api` call.  The code contains
no sleep or polling call; `sleepE` is in the vocabulary only so that
claims about sleeping are statable. -/
inductive Event
  | readE (records : List Record)
  | sendE (batch : List Record)
  | sleepE
deriving DecidableEq

/-- The per-record loop of `process_data_thread`: at iteration `k` the
`is_running` flag is checked (`running k`); on `False` the loop breaks;
otherwise the record is appended to `data_batch`, and a full batch
(`len(data_batch) >= batch_size`) is sent and reset.  After the loop the
remaining partial batch, if nonempty, is sent. -/
def processLoop (batchSize : ℕ) (running : ℕ → Bool) :
    List Record → ℕ → List Record → List Event
  | [], _, batch => if batch.isEmpty then [] else [Event.sendE batch]
  | record :: rest, k, batch =>
      if running k then
        if batchSize ≤ (batch ++ [record]).length then
          Event.sendE (batch ++ [record])
            :: processLoop batchSize running rest (k + 1) []
        else
          processLoop batchSize running rest (k + 1) (batch ++ [record])
      else if batch.isEmpty then [] else [Event.sendE batch]

/-- `ECGDataReceiver.process_data_thread`: read the whole CSV once, then
run the batching loop from an empty batch. -/
def processDataThread (batchSize : ℕ) (running : ℕ → Bool)
    (file : Option (List Row)) (now : String) : List Event :=
  Event.readE (readCsvData file now)
    :: processLoop batchSize running (readCsvData file now) 0 []

/-- The batches passed to `send_data_to_api`, in order. -/
def sentBatches (events : List Event) : List (List Record) :=
  events.filterMap
    (fun e => match e with | Event.sendE b => some b | _ => none)

/-- The POST body of `send_data_to_api`: `json=data_batch`, the batch
itself with no envelope. -/
def sendBody (batch : List Record) : List Record := batch

/-- Reference greedy chunking: what the batching loop produces when never
stopped, starting from carry batch `batch`. -/
def chunksAux (batchSize : ℕ) : List Record → List Record → List (List Record)
  | [], batch => if batch.isEmpty then [] else [batch]
  | record :: rest, batch =>
      if batchSize ≤ (batch ++ [record]).length then
        (batch ++ [record]) :: chunksAux batchSize rest []
      else
        chunksAux batchSize rest (batch ++ [record])

/-- A concrete well-formed log with `n` rows, `time = i`, `ecg_signal = 0`,
used by the concrete checks. -/
def demoRows (n : ℕ) : List Row :=
  (List.range n).map (fun (i : ℕ) => { timeVal := some ((i : ℚ)), ecgVal := some 0 })

end ECGDataReceiver

end ECG

open ECG ECG.ECGSimulator ECG.ECGDataReceiver

/-! ### Helper lemmas about the synthesizer -/

theorem timeAxis_length (duration samplingRate : ℚ) :
    (timeAxis duration samplingRate).length = numSamples duration samplingRate := by
  unfold ECG.ECGSimulator.timeAxis
  rw [List.length_map, List.length_range]

theorem timeAxis_get (duration samplingRate : ℚ) (k : ℕ)
    (hk : k < (timeAxis duration samplingRate).length) :
    (timeAxis duration samplingRate).get ⟨k, hk⟩
      = (k : ℚ) * (duration / (numSamples duration samplingRate : ℚ)) := by
  rw [List.get_eq_getElem]
  unfold ECG.ECGSimulator.timeAxis
  rw [List.getElem_map, List.getElem_range]

/-! ### Claim C1 -/

/-- Claim C1: for every `duration > 0`, `sampling_rate > 0` and
`heart_rate > 0`, constructing the synthesizer yields a window of exactly
`floor(duration * sampling_rate)` samples whose time values are strictly
increasing, evenly spaced with step `duration / N`, and all lie in
`[0, duration)`. -/
theorem claim_C1 (duration samplingRate heartRate : ℚ)
    (hd : 0 < duration) (hs : 0 < samplingRate) (hh : 0 < heartRate) :
    (timeAxis duration samplingRate).length = numSamples duration samplingRate
    ∧ List.Pairwise (· < ·) (timeAxis duration samplingRate)
    ∧ (∀ (k : ℕ) (hk1 : k + 1 < (timeAxis duration samplingRate).length)
        (hk : k < (timeAxis duration samplingRate).length),
        (timeAxis duration samplingRate).get ⟨k + 1, hk1⟩
          - (timeAxis duration samplingRate).get ⟨k, hk⟩
          = duration / (numSamples duration samplingRate : ℚ))
    ∧ (∀ t ∈ timeAxis duration samplingRate, 0 ≤ t ∧ t < duration) := by
  refine ⟨timeAxis_length duration samplingRate, ?_, ?_, ?_⟩
  · -- strictly increasing
    unfold ECG.ECGSimulator.timeAxis
    rw [List.pairwise_map]
    rcases Nat.eq_zero_or_pos (numSamples duration samplingRate) with h0 | hpos
    · rw [h0]
      exact List.Pairwise.nil
    · have hstep : 0 < duration / (numSamples duration samplingRate : ℚ) := by
        apply div_pos hd
        exact_mod_cast hpos
      refine (List.pairwise_lt_range (numSamples duration samplingRate)).imp ?_
      intro a b hab
      have hab' : (a : ℚ) < (b : ℚ) := by exact_mod_cast hab
      exact mul_lt_mul_of_pos_right hab' hstep
  · -- evenly spaced
    intro k hk1 hk
    rw [timeAxis_get duration samplingRate (k + 1) hk1,
        timeAxis_get duration samplingRate k hk]
    push_cast
    ring
  · -- all in [0, duration)
    intro t ht
    unfold ECG.ECGSimulator.timeAxis at ht
    rw [List.mem_map] at ht
    obtain ⟨k, hkmem, hkt⟩ := ht
    rw [List.mem_range] at hkmem
    have hNQ : (0 : ℚ) < (numSamples duration samplingRate : ℚ) := by
      have : 0 < numSamples duration samplingRate := Nat.zero_lt_of_lt hkmem
      exact_mod_cast this
    constructor
    · rw [← hkt]
      positivity
    · rw [← hkt]
      have hkN : (k : ℚ) < (numSamples duration samplingRate : ℚ) := by
        exact_mod_cast hkmem
      calc (k : ℚ) * (duration / (numSamples duration samplingRate : ℚ))
          < (numSamples duration samplingRate : ℚ)
              * (duration / (numSamples duration samplingRate : ℚ)) :=
            mul_lt_mul_of_pos_right hkN (div_pos hd hNQ)
        _ = duration := by field_simp

/-- Witness for claim C1 at `duration = 1`, `sampling_rate = 3`,
`heart_rate = 1`: the window has 3 samples `0, 1/3, 2/3`. -/
theorem claim_C1_witness :
    ((0 : ℚ) < 1 ∧ (0 : ℚ) < 3 ∧ (0 : ℚ) < 1)
    ∧ ((timeAxis 1 3).length = numSamples 1 3
      ∧ List.Pairwise (· < ·) (timeAxis 1 3)
      ∧ (∀ (k : ℕ) (hk1 : k + 1 < (timeAxis 1 3).length)
          (hk : k < (timeAxis 1 3).length),
          (timeAxis 1 3).get ⟨k + 1, hk1⟩ - (timeAxis 1 3).get ⟨k, hk⟩
            = 1 / (numSamples 1 3 : ℚ))
      ∧ (∀ t ∈ timeAxis 1 3, 0 ≤ t ∧ t < 1)) :=
  ⟨⟨by norm_num, by norm_num, by norm_num⟩,
   claim_C1 1 3 1 (by norm_num) (by norm_num) (by norm_num)⟩

/-! ### Claim C4 -/

/-- Claim C4: for each beat-cycle index `i` with center
`c_i = i * 60 / heart_rate`, the noise-free accumulator receives exactly
three QRS Gaussian pulses `amplitude * exp(-(x-center)^2 / (2*width^2))`:
Q at `c_i - 0.05` with amplitude `-0.5 * A` and width `0.02`, R at `c_i`
with amplitude `1.0 * A` and width `0.03`, and S at `c_i + 0.05` with
amplitude `-0.3 * A` and width `0.02`, where `A = 1` is the amplitude
used at the only `_qrs_complex` call site (its default). -/
theorem claim_C4 (duration heartRate x : ℝ) :
    signalBase duration heartRate x =
      (∑ i in Finset.range (numBeats duration heartRate),
          gaussianWave x ((i : ℝ) * 60 / heartRate) 0.1 0.1)
      + (∑ i in Finset.range (numBeats duration heartRate),
          ((-0.5 * 1) * Real.exp (-(x - ((i : ℝ) * 60 / heartRate - 0.05)) ^ 2
              / (2 * 0.02 ^ 2))
          + (1.0 * 1) * Real.exp (-(x - (i : ℝ) * 60 / heartRate) ^ 2
              / (2 * 0.03 ^ 2))
          + (-0.3 * 1) * Real.exp (-(x - ((i : ℝ) * 60 / heartRate + 0.05)) ^ 2
              / (2 * 0.02 ^ 2))))
      + (∑ i in Finset.range (numBeats duration heartRate),
          gaussianWave x ((i : ℝ) * 60 / heartRate + 0.4) (-0.3) 0.15) := by
  unfold ECG.ECGSimulator.signalBase
  congr 1
  congr 1
  refine Finset.sum_congr rfl ?_
  intro i _
  unfold ECG.ECGSimulator.qrsComplex ECG.ECGSimulator.gaussianWave
  norm_num

/-! ### Claim C5 -/

/-- Claim C5 counterexample: with noise level 0, at `duration = 1`,
`heart_rate = 60`, the generated signal at the beat center `c_0 = 0` is
strictly greater than `A + 1/25` (with `A = 1`), far beyond floating-point
tolerance of `A`: the P wave centered at `c_0` adds `0.1`, only partly
cancelled by the Q, S and T tails. -/
theorem claim_C5_counterexample :
    1 + 1 / 25 < generateEcgSignal 1 60 (fun _ => 0) 0 := by
  have hnb : numBeats 1 60 = 1 := by
    unfold ECG.ECGSimulator.numBeats
    norm_num
  unfold ECG.ECGSimulator.generateEcgSignal ECG.ECGSimulator.signalBase
  rw [hnb]
  simp only [Finset.sum_range_one]
  unfold ECG.ECGSimulator.qrsComplex ECG.ECGSimulator.gaussianWave
  norm_num
  have hexp3 : (20 : ℝ) < Real.exp 3 := by
    have h1 : (2.7182818283 : ℝ) < Real.exp 1 := Real.exp_one_gt_d9
    have h3 : Real.exp (3 : ℝ) = Real.exp 1 ^ (3 : ℕ) := by
      rw [show (3 : ℝ) = ((3 : ℕ) : ℝ) * 1 by norm_num, Real.exp_nat_mul]
    rw [h3]
    calc (20 : ℝ) < 2.7182818283 ^ (3 : ℕ) := by norm_num
      _ < Real.exp 1 ^ (3 : ℕ) := by
          apply pow_lt_pow_left h1 (by norm_num)
          norm_num
  have hneg3 : Real.exp (-3 : ℝ) < 1 / 20 := by
    rw [Real.exp_neg]
    rw [show (1 : ℝ) / 20 = ((20 : ℝ))⁻¹ by norm_num]
    exact inv_lt_inv_of_lt (by norm_num) hexp3
  have hE1 : Real.exp (-(25 / 8) : ℝ) < 1 / 20 :=
    lt_of_le_of_lt (Real.exp_le_exp.mpr (by norm_num)) hneg3
  have hE2 : Real.exp (-(32 / 9) : ℝ) < 1 / 20 :=
    lt_of_le_of_lt (Real.exp_le_exp.mpr (by norm_num)) hneg3
  have hE1p : (0 : ℝ) < Real.exp (-(25 / 8) : ℝ) := Real.exp_pos _
  have hE2p : (0 : ℝ) < Real.exp (-(32 / 9) : ℝ) := Real.exp_pos _
  linarith

/-- Claim C5 amended: with noise level 0 the generated signal is the
noise-free accumulator, and the R component alone peaks at exactly the
amplitude scale `A = 1` at its center; the full signal at a beat center
additionally contains the overlapping P-wave and Q/S/T tails (see the
counterexample), so only the R component, not the whole signal, equals
`A` there. -/
theorem claim_C5_amended :
    (∀ duration heartRate x : ℝ,
      generateEcgSignal duration heartRate (fun _ => 0) x
        = signalBase duration heartRate x)
    ∧ (∀ center : ℝ, gaussianWave center center 1 0.03 = 1) := by
  constructor
  · intro duration heartRate x
    unfold ECG.ECGSimulator.generateEcgSignal
    norm_num
  · intro center
    unfold ECG.ECGSimulator.gaussianWave
    simp [sub_self]

/-! ### Claim C9 -/

/-- Claim C9 counterexample: constructing the simulator with
`heart_rate = 0` (and the default `duration = 10`, `sampling_rate = 250`)
does not fail: it silently generates a full-length window of 2500
samples whose noise-free signal is identically zero — `beats` is `0`, so
every per-beat loop body (and hence every division by `heart_rate`) is
skipped.  No `ConfigurationError` exists anywhere in the code. -/
theorem claim_C9_counterexample :
    (timeAxis 10 250).length = 2500 ∧ signalBase 10 0 0 = 0 := by
  constructor
  · rw [timeAxis_length]
    unfold ECG.ECGSimulator.numSamples
    norm_num
    decide
  · have hnb : numBeats 10 0 = 0 := by
      unfold ECG.ECGSimulator.numBeats
      norm_num
    unfold ECG.ECGSimulator.signalBase
    rw [hnb]
    simp

/-- Claim C9 amended: for `heart_rate <= 0` (and nonnegative duration)
construction does not raise: the beat count floors to zero, all per-beat
loops are empty — so no divide-by-zero can occur — and the window is
silently generated with an identically zero noise-free signal. -/
theorem claim_C9_amended (duration heartRate x : ℝ)
    (hh : heartRate ≤ 0) (hd : 0 ≤ duration) :
    numBeats duration heartRate = 0 ∧ signalBase duration heartRate x = 0 := by
  have hnb : numBeats duration heartRate = 0 := by
    unfold ECG.ECGSimulator.numBeats
    rw [Int.toNat_eq_zero]
    apply Int.floor_nonpos
    apply mul_nonpos_of_nonneg_of_nonpos hd
    linarith
  refine ⟨hnb, ?_⟩
  unfold ECG.ECGSimulator.signalBase
  rw [hnb]
  simp

/-- Witness for the amended claim C9 at `duration = 10`,
`heart_rate = -72`, `x = 0`. -/
theorem claim_C9_amended_witness :
    ((-72 : ℝ) ≤ 0 ∧ (0 : ℝ) ≤ 10)
    ∧ (numBeats 10 (-72) = 0 ∧ signalBase 10 (-72) 0 = 0) :=
  ⟨⟨by norm_num, by norm_num⟩,
   claim_C9_amended 10 (-72) 0 (by norm_num) (by norm_num)⟩

/-! ### Helper lemmas about the transmitter -/

theorem sentBatches_readE (records : List Record) (evs : List Event) :
    sentBatches (Event.readE records :: evs) = sentBatches evs := rfl

theorem sentBatches_map_sendE (l : List (List Record)) :
    sentBatches (l.map Event.sendE) = l := by
  induction l with
  | nil => rfl
  | cons b bs ih =>
      simp only [List.map_cons, sentBatches, List.filterMap_cons]
      simp only [sentBatches] at ih
      rw [ih]

theorem processLoop_true (batchSize : ℕ) :
    ∀ (records : List Record) (k : ℕ) (batch : List Record),
      processLoop batchSize (fun _ => true) records k batch
        = (chunksAux batchSize records batch).map Event.sendE := by
  intro records
  induction records with
  | nil =>
      intro k batch
      by_cases h : batch.isEmpty <;> simp [processLoop, chunksAux, h]
  | cons r rs ih =>
      intro k batch
      by_cases h : batchSize ≤ batch.length + 1 <;>
        simp [processLoop, chunksAux, h, ih]

theorem processLoop_stop (batchSize n : ℕ) :
    ∀ (records : List Record) (k : ℕ) (batch : List Record),
      processLoop batchSize (fun j => decide (j < n)) records k batch
        = (chunksAux batchSize (records.take (n - k)) batch).map Event.sendE := by
  intro records
  induction records with
  | nil =>
      intro k batch
      by_cases h : batch.isEmpty <;> simp [processLoop, chunksAux, h]
  | cons r rs ih =>
      intro k batch
      by_cases hk : k < n
      · have h1 : n - k = (n - (k + 1)) + 1 := by omega
        rw [h1, List.take_succ_cons]
        by_cases h : batchSize ≤ batch.length + 1 <;>
          simp [processLoop, chunksAux, hk, h, ih]
      · have h0 : n - k = 0 := by omega
        rw [h0, List.take_zero]
        by_cases h : batch.isEmpty <;> simp [processLoop, chunksAux, hk, h]

theorem chunksAux_join (batchSize : ℕ) :
    ∀ (records batch : List Record),
      (chunksAux batchSize records batch).join = batch ++ records := by
  intro records
  induction records with
  | nil =>
      intro batch
      by_cases h : batch.isEmpty
      · simp [chunksAux, h, List.isEmpty_iff.mp h]
      · simp [chunksAux, h]
  | cons r rs ih =>
      intro batch
      by_cases h : batchSize ≤ batch.length + 1 <;>
        simp [chunksAux, h, ih]

theorem chunksAux_batches (batchSize : ℕ) (hbs : 1 ≤ batchSize) :
    ∀ (records batch : List Record), batch.length < batchSize →
      ∀ b ∈ chunksAux batchSize records batch, b ≠ [] ∧ b.length ≤ batchSize := by
  intro records
  induction records with
  | nil =>
      intro batch hlt b hb
      by_cases h : batch.isEmpty
      · simp [chunksAux, h] at hb
      · simp [chunksAux, h] at hb
        subst hb
        exact ⟨fun hnil => h (by simp [hnil]), le_of_lt hlt⟩
  | cons r rs ih =>
      intro batch hlt b hb
      by_cases h : batchSize ≤ (batch ++ [r]).length
      · simp only [chunksAux, if_pos h] at hb
        rcases List.mem_cons.mp hb with rfl | hb2
        · refine ⟨by simp, ?_⟩
          have : (batch ++ [r]).length = batch.length + 1 := by simp
          omega
        · exact ih [] (by simpa using hbs) b hb2
      · simp only [chunksAux, if_neg h] at hb
        have hlen : (batch ++ [r]).length < batchSize := by
          have : (batch ++ [r]).length = batch.length + 1 := by simp
          omega
        exact ih (batch ++ [r]) hlen b hb

theorem chunksAux_fill (batchSize : ℕ) :
    ∀ (xs ys batch : List Record),
      batch.length + xs.length = batchSize → xs ≠ [] →
      chunksAux batchSize (xs ++ ys) batch
        = (batch ++ xs) :: chunksAux batchSize ys [] := by
  intro xs
  induction xs with
  | nil => intro ys batch h hne; exact absurd rfl hne
  | cons x xs ih =>
      intro ys batch h hne
      have hstep : chunksAux batchSize ((x :: xs) ++ ys) batch
          = if batchSize ≤ (batch ++ [x]).length
            then (batch ++ [x]) :: chunksAux batchSize (xs ++ ys) []
            else chunksAux batchSize (xs ++ ys) (batch ++ [x]) := by
        rw [List.cons_append]
        rfl
      by_cases hx : xs = []
      · subst hx
        have hcond : batchSize ≤ (batch ++ [x]).length := by
          simp only [List.length_cons, List.length_nil] at h
          simp only [List.length_append, List.length_cons, List.length_nil]
          omega
        rw [hstep, if_pos hcond]
        simp
      · have hcond : ¬ batchSize ≤ (batch ++ [x]).length := by
          have hxs : 1 ≤ xs.length := by
            cases xs with
            | nil => exact absurd rfl hx
            | cons a as => simp
          simp only [List.length_cons] at h
          simp only [List.length_append, List.length_cons, List.length_nil]
          omega
        have harg : (batch ++ [x]).length + xs.length = batchSize := by
          simp only [List.length_append, List.length_cons, List.length_nil]
          simp only [List.length_cons] at h
          omega
        rw [hstep, if_neg hcond, ih ys (batch ++ [x]) harg hx]
        congr 1
        simp

theorem chunksAux_step (batchSize : ℕ) (hbs : 1 ≤ batchSize)
    (records : List Record) (hlen : batchSize ≤ records.length) :
    chunksAux batchSize records []
      = records.take batchSize :: chunksAux batchSize (records.drop batchSize) [] := by
  have htake : (records.take batchSize).length = batchSize :=
    List.length_take_of_le hlen
  have hne : records.take batchSize ≠ [] := by
    intro hnil
    rw [hnil] at htake
    simp at htake
    omega
  conv_lhs => rw [← List.take_append_drop batchSize records]
  rw [chunksAux_fill batchSize (records.take batchSize) (records.drop batchSize) []
      (by simpa using htake) hne]
  simp

theorem readRowsOpt_all_some (now : String) :
    ∀ rows : List Row, (∀ r ∈ rows, (parseRow now r).isSome) →
      readRowsOpt now rows
        = some (rows.map (fun r =>
            [("timestamp", Value.str now), ("time", Value.num (r.timeVal.getD 0)),
             ("ecg_signal", Value.num (r.ecgVal.getD 0))])) := by
  intro rows
  induction rows with
  | nil => intro _; rfl
  | cons r rs ih =>
      intro h
      have hr := h r (by simp)
      cases hrt : r.timeVal with
      | none => rw [parseRow] at hr; rw [hrt] at hr; simp at hr
      | some t =>
          cases hre : r.ecgVal with
          | none => rw [parseRow] at hr; rw [hrt, hre] at hr; simp at hr
          | some e =>
              have htail := ih (fun x hx => h x (List.mem_cons_of_mem r hx))
              simp only [readRowsOpt, parseRow, hrt, hre, htail, Option.map_some,
                Option.map_some', List.map_cons, Option.getD_some]

theorem readCsvData_all_some (now : String) (rows : List Row)
    (h : ∀ r ∈ rows, (parseRow now r).isSome) :
    readCsvData (some rows) now
      = rows.map (fun r =>
          [("timestamp", Value.str now), ("time", Value.num (r.timeVal.getD 0)),
           ("ecg_signal", Value.num (r.ecgVal.getD 0))]) := by
  have hdef : readCsvData (some rows) now = (readRowsOpt now rows).getD [] := rfl
  rw [hdef, readRowsOpt_all_some now rows h]
  rfl

theorem readCsvData_length (now : String) (rows : List Row)
    (h : ∀ r ∈ rows, (parseRow now r).isSome) :
    (readCsvData (some rows) now).length = rows.length := by
  rw [readCsvData_all_some now rows h, List.length_map]

theorem readRowsOpt_eq_none (now : String) :
    ∀ (rows : List Row) (r : Row), r ∈ rows → parseRow now r = none →
      readRowsOpt now rows = none := by
  intro rows
  induction rows with
  | nil => intro r hr _; simp at hr
  | cons a as ih =>
      intro r hr hpr
      rcases List.mem_cons.mp hr with rfl | hmem
      · simp [readRowsOpt, hpr]
      · cases hpa : parseRow now a with
        | none => simp [readRowsOpt, hpa]
        | some record => simp [readRowsOpt, hpa, ih r hmem hpr]

theorem readRowsOpt_shape (now : String) :
    ∀ (rows : List Row) (l : List Record), readRowsOpt now rows = some l →
      ∀ record ∈ l, record.map Prod.fst = ["timestamp", "time", "ecg_signal"] := by
  intro rows
  induction rows with
  | nil =>
      intro l hl record hrec
      simp only [readRowsOpt, Option.some.injEq] at hl
      subst hl
      simp at hrec
  | cons a as ih =>
      intro l hl record hrec
      cases hpa : parseRow now a with
      | none => rw [readRowsOpt, hpa] at hl; simp at hl
      | some record0 =>
          rw [readRowsOpt, hpa] at hl
          cases htail : readRowsOpt now as with
          | none => rw [htail] at hl; simp at hl
          | some l2 =>
              rw [htail] at hl
              simp only [Option.map_some, Option.map_some', Option.some.injEq] at hl
              subst hl
              rcases List.mem_cons.mp hrec with rfl | hmem
              · cases hrt : a.timeVal with
                | none => rw [parseRow, hrt] at hpa; simp at hpa
                | some t =>
                    cases hre : a.ecgVal with
                    | none => rw [parseRow, hrt, hre] at hpa; simp at hpa
                    | some e =>
                        rw [parseRow, hrt, hre] at hpa
                        simp only [Option.some.injEq] at hpa
                        subst hpa
                        rfl
              · exact ih l2 htail record hmem

/-! ### Claim C2 -/

/-- Claim C2: for a record log of exactly 1000 (well-formed) records and
`batch_size = 250`, one full `process_data_thread` pass that is never
stopped (the endpoint result is ignored by the code, so "always
succeeds" imposes nothing further) calls `send_data_to_api` exactly 4
times; the batches are the four consecutive 250-record slices of the
read records in log order, their concatenation is exactly the 1000 read
records, and the number of records consumed by the pass — the delivery
cursor position, measured as records dispatched — ends at 1000. -/
theorem claim_C2 (rows : List Row) (now : String)
    (hlen : rows.length = 1000)
    (hwf : ∀ r ∈ rows, (parseRow now r).isSome) :
    sentBatches (processDataThread 250 (fun _ => true) (some rows) now)
        = [(readCsvData (some rows) now).take 250,
           ((readCsvData (some rows) now).drop 250).take 250,
           (((readCsvData (some rows) now).drop 250).drop 250).take 250,
           ((((readCsvData (some rows) now).drop 250).drop 250).drop 250).take 250]
    ∧ (sentBatches (processDataThread 250 (fun _ => true) (some rows) now)).length = 4
    ∧ (∀ b ∈ sentBatches (processDataThread 250 (fun _ => true) (some rows) now),
        b.length = 250)
    ∧ (sentBatches (processDataThread 250 (fun _ => true) (some rows) now)).join
        = readCsvData (some rows) now
    ∧ (sentBatches (processDataThread 250 (fun _ => true) (some rows) now)).join.length
        = 1000 := by
  have hcsv : (readCsvData (some rows) now).length = 1000 := by
    rw [readCsvData_length now rows hwf, hlen]
  set recs := readCsvData (some rows) now with hrecs
  have hmain : sentBatches (processDataThread 250 (fun _ => true) (some rows) now)
      = chunksAux 250 recs [] := by
    unfold ECG.ECGDataReceiver.processDataThread
    rw [sentBatches_readE, processLoop_true, sentBatches_map_sendE]
  have hd1 : (recs.drop 250).length = 750 := by rw [List.length_drop, hcsv]
  have hd2 : ((recs.drop 250).drop 250).length = 500 := by
    rw [List.length_drop, hd1]
  have hd3 : (((recs.drop 250).drop 250).drop 250).length = 250 := by
    rw [List.length_drop, hd2]
  have hnil : (((recs.drop 250).drop 250).drop 250).drop 250 = [] :=
    List.eq_nil_of_length_eq_zero (by rw [List.length_drop, hd3])
  have hlist : chunksAux 250 recs []
      = [recs.take 250, (recs.drop 250).take 250,
         ((recs.drop 250).drop 250).take 250,
         (((recs.drop 250).drop 250).drop 250).take 250] := by
    rw [chunksAux_step 250 (by norm_num) recs (by omega),
        chunksAux_step 250 (by norm_num) _ (by omega),
        chunksAux_step 250 (by norm_num) _ (by omega),
        chunksAux_step 250 (by norm_num) _ (by omega),
        hnil]
    rfl
  refine ⟨by rw [hmain, hlist], by rw [hmain, hlist]; rfl, ?_, ?_, ?_⟩
  · intro b hb
    rw [hmain, hlist] at hb
    simp only [List.mem_cons, List.not_mem_nil, or_false] at hb
    rcases hb with rfl | rfl | rfl | rfl
    · rw [List.length_take]; omega
    · rw [List.length_take]; omega
    · rw [List.length_take]; omega
    · rw [List.length_take]; omega
  · rw [hmain, chunksAux_join]
    rfl
  · rw [hmain, chunksAux_join, List.nil_append, hcsv]

/-- Witness for claim C2 on the concrete 1000-row log `demoRows 1000`. -/
theorem claim_C2_witness :
    ((demoRows 1000).length = 1000
      ∧ (∀ r ∈ demoRows 1000, (parseRow "t" r).isSome))
    ∧ (sentBatches (processDataThread 250 (fun _ => true) (some (demoRows 1000)) "t")
        = [(readCsvData (some (demoRows 1000)) "t").take 250,
           ((readCsvData (some (demoRows 1000)) "t").drop 250).take 250,
           (((readCsvData (some (demoRows 1000)) "t").drop 250).drop 250).take 250,
           ((((readCsvData (some (demoRows 1000)) "t").drop 250).drop 250).drop 250).take 250]
      ∧ (sentBatches (processDataThread 250 (fun _ => true) (some (demoRows 1000)) "t")).length = 4
      ∧ (∀ b ∈ sentBatches (processDataThread 250 (fun _ => true) (some (demoRows 1000)) "t"),
          b.length = 250)
      ∧ (sentBatches (processDataThread 250 (fun _ => true) (some (demoRows 1000)) "t")).join
          = readCsvData (some (demoRows 1000)) "t"
      ∧ (sentBatches (processDataThread 250 (fun _ => true) (some (demoRows 1000)) "t")).join.length
          = 1000) := by
  have hlen : (demoRows 1000).length = 1000 := by
    unfold ECG.ECGDataReceiver.demoRows
    rw [List.length_map, List.length_range]
  have hwf : ∀ r ∈ demoRows 1000, (parseRow "t" r).isSome := by
    intro r hr
    unfold ECG.ECGDataReceiver.demoRows at hr
    rw [List.mem_map] at hr
    obtain ⟨i, _, rfl⟩ := hr
    rfl
  exact ⟨⟨hlen, hwf⟩, claim_C2 (demoRows 1000) "t" hlen hwf⟩

/-! ### Claim C3 -/

/-- Claim C3 counterexample: the code keeps no `last_sent_index` — no
such state exists anywhere in `pocket-server.py`, and `read_csv_data`
always reads the full file — so a restarted Transmitter (a second
`process_data_thread` run over the same 1000-record log, which is all a
restart with a "persisted cursor of 500" can be) re-reads and re-sends
all 1000 records: the concatenation of its sent batches is the whole
record list (length 1000, not 500), and the very first record of the log
— one of the first 500 the claim says may never be re-sent — is among
the records it sends. -/
theorem claim_C3_counterexample :
    (sentBatches (processDataThread 250 (fun _ => true) (some (demoRows 1000)) "t2")).join
        = readCsvData (some (demoRows 1000)) "t2"
    ∧ (readCsvData (some (demoRows 1000)) "t2").length = 1000
    ∧ [("timestamp", Value.str "t2"), ("time", Value.num 0),
       ("ecg_signal", Value.num 0)]
        ∈ (sentBatches (processDataThread 250 (fun _ => true)
            (some (demoRows 1000)) "t2")).join := by
  have hwf : ∀ r ∈ demoRows 1000, (parseRow "t2" r).isSome := by
    intro r hr
    unfold ECG.ECGDataReceiver.demoRows at hr
    rw [List.mem_map] at hr
    obtain ⟨i, _, rfl⟩ := hr
    rfl
  have hjoin : (sentBatches (processDataThread 250 (fun _ => true)
        (some (demoRows 1000)) "t2")).join
      = readCsvData (some (demoRows 1000)) "t2" := by
    unfold ECG.ECGDataReceiver.processDataThread
    rw [sentBatches_readE, processLoop_true, sentBatches_map_sendE,
        chunksAux_join, List.nil_append]
  refine ⟨hjoin, ?_, ?_⟩
  · rw [readCsvData_length "t2" _ hwf]
    unfold ECG.ECGDataReceiver.demoRows
    rw [List.length_map, List.length_range]
  · rw [hjoin, readCsvData_all_some "t2" _ hwf]
    unfold ECG.ECGDataReceiver.demoRows
    rw [List.map_map, List.mem_map]
    refine ⟨0, by simp, ?_⟩
    norm_num

/-- Claim C3 amended: the Transmitter maintains no delivery cursor at
all: `read_csv_data` always reads the whole log from the start, and a
never-stopped `process_data_thread` pass dispatches every record it
read, so restarting simply re-sends everything — including any records a
previous run already sent — rather than resuming from a persisted
offset. -/
theorem claim_C3_amended (rows : List Row) (now : String) (batchSize : ℕ) :
    (sentBatches (processDataThread batchSize (fun _ => true) (some rows) now)).join
      = readCsvData (some rows) now := by
  unfold ECG.ECGDataReceiver.processDataThread
  rw [sentBatches_readE, processLoop_true, sentBatches_map_sendE,
      chunksAux_join, List.nil_append]

/-! ### Claim C6 -/

/-- Claim C6 counterexample: the outbound body built by
`send_data_to_api` (`json=data_batch`, no envelope) for a one-row log
consists of a record whose key set is
`["timestamp", "time", "ecg_signal"]` — the `time` field is NOT dropped
before transmission, contradicting the claimed wire shape
`{ timestamp, ecg_signal }`; nor does any `user_id` wrapping exist. -/
theorem claim_C6_counterexample :
    (sendBody (readCsvData
        (some [{ timeVal := some (1/2), ecgVal := some (3/4) }]) "T")).map
        (fun record => record.map Prod.fst)
      = [["timestamp", "time", "ecg_signal"]] := rfl

/-- Claim C6 amended: every record sent to the endpoint has exactly the
three fields `timestamp`, `time` and `ecg_signal`, in that order: the
`time` field from the log is retained on the wire, and the body is the
bare array of records with no `user_id` envelope. -/
theorem claim_C6_amended (file : Option (List Row)) (now : String)
    (record : Record) (h : record ∈ sendBody (readCsvData file now)) :
    record.map Prod.fst = ["timestamp", "time", "ecg_signal"] := by
  cases file with
  | none =>
      unfold ECG.ECGDataReceiver.sendBody ECG.ECGDataReceiver.readCsvData at h
      simp at h
  | some rows =>
      have hdef : sendBody (readCsvData (some rows) now)
          = (readRowsOpt now rows).getD [] := rfl
      rw [hdef] at h
      cases hro : readRowsOpt now rows with
      | none => rw [hro] at h; simp at h
      | some l =>
          rw [hro] at h
          simp only [Option.getD_some] at h
          exact readRowsOpt_shape now rows l hro record h

/-- Witness for the amended claim C6 on a concrete one-row log. -/
theorem claim_C6_amended_witness :
    ([("timestamp", Value.str "T"), ("time", Value.num (1/2)),
      ("ecg_signal", Value.num (3/4))]
        ∈ sendBody (readCsvData
            (some [{ timeVal := some (1/2), ecgVal := some (3/4) }]) "T"))
    ∧ ([("timestamp", Value.str "T"), ("time", Value.num (1/2)),
        ("ecg_signal", Value.num (3/4))].map Prod.fst
          = ["timestamp", "time", "ecg_signal"]) := by
  have hmem : [("timestamp", Value.str "T"), ("time", Value.num (1/2)),
      ("ecg_signal", Value.num (3/4))]
        ∈ sendBody (readCsvData
            (some [{ timeVal := some (1/2), ecgVal := some (3/4) }]) "T") := by
    have hcomp : sendBody (readCsvData
        (some [{ timeVal := some (1/2), ecgVal := some (3/4) }]) "T")
        = [[("timestamp", Value.str "T"), ("time", Value.num (1/2)),
            ("ecg_signal", Value.num (3/4))]] := rfl
    rw [hcomp]
    exact List.mem_singleton.mpr rfl
  exact ⟨hmem, claim_C6_amended _ "T" _ hmem⟩

/-! ### Claim C7 -/

/-- Claim C7 counterexample: on a missing log file the read does return
zero records (first half of the claim, true), but the processing thread
then performs NO sleep and NO retry: its whole event trace is the single
read that returned `[]`, after which the thread returns — there is no
poll loop in `process_data_thread` at all, contradicting "sleeps for the
configured poll interval and retries the read". -/
theorem claim_C7_counterexample :
    readCsvData (none : Option (List Row)) "t" = []
    ∧ processDataThread 10 (fun _ => true) (none : Option (List Row)) "t"
        = [Event.readE []]
    ∧ Event.sleepE ∉ processDataThread 10 (fun _ => true)
        (none : Option (List Row)) "t" := by
  refine ⟨rfl, rfl, ?_⟩
  intro hmem
  have h2 : processDataThread 10 (fun _ => true) (none : Option (List Row)) "t"
      = [Event.readE []] := rfl
  rw [h2] at hmem
  simp at hmem

/-- Claim C7 amended: when the log file does not exist the read returns
zero records instead of failing fatally (the `FileNotFoundError` branch),
and the processing thread then sends nothing, never sleeps, and returns
immediately after the single read — it does not poll or retry. -/
theorem claim_C7_amended (batchSize : ℕ) (running : ℕ → Bool) (now : String) :
    readCsvData none now = []
    ∧ processDataThread batchSize running none now = [Event.readE []]
    ∧ Event.sleepE ∉ processDataThread batchSize running none now := by
  refine ⟨rfl, rfl, ?_⟩
  intro hmem
  have h2 : processDataThread batchSize running none now = [Event.readE []] := rfl
  rw [h2] at hmem
  simp at hmem

/-! ### Claim C8 -/

/-- Claim C8 counterexample: a three-row log whose middle row is
malformed (`time` does not parse) and whose first and third rows are
perfectly parseable yields an EMPTY read: `read_csv_data` catches the
exception for the whole loop and returns `[]`, abandoning the 2
parseable records, instead of skipping only the malformed row as the
claim states. -/
theorem claim_C8_counterexample :
    readCsvData (some [{ timeVal := some 1, ecgVal := some 2 },
                       { timeVal := none, ecgVal := some 3 },
                       { timeVal := some 4, ecgVal := some 5 }]) "t" = []
    ∧ (([{ timeVal := some 1, ecgVal := some 2 },
         { timeVal := none, ecgVal := some 3 },
         { timeVal := some 4, ecgVal := some 5 }] : List Row).filter
          (fun r => (parseRow "t" r).isSome)).length = 2 := ⟨rfl, rfl⟩

/-- Claim C8 amended: a malformed row does not merely lose itself: any
row that fails to parse makes `read_csv_data` return `[]` for the whole
file (the catch-all `except` branch), dropping every parseable record of
that read as well. -/
theorem claim_C8_amended (rows : List Row) (now : String) (r : Row)
    (hr : r ∈ rows) (hpr : parseRow now r = none) :
    readCsvData (some rows) now = [] := by
  have hnone : readRowsOpt now rows = none := readRowsOpt_eq_none now rows r hr hpr
  have hdef : readCsvData (some rows) now = (readRowsOpt now rows).getD [] := rfl
  rw [hdef, hnone]
  rfl

/-- Witness for the amended claim C8 on the concrete three-row log with
a malformed middle row. -/
theorem claim_C8_amended_witness :
    (({ timeVal := none, ecgVal := some 3 } : Row)
        ∈ ([{ timeVal := some 1, ecgVal := some 2 },
            { timeVal := none, ecgVal := some 3 },
            { timeVal := some 4, ecgVal := some 5 }] : List Row)
      ∧ parseRow "t" { timeVal := none, ecgVal := some 3 } = none)
    ∧ readCsvData (some [{ timeVal := some 1, ecgVal := some 2 },
                         { timeVal := none, ecgVal := some 3 },
                         { timeVal := some 4, ecgVal := some 5 }]) "t" = [] := by
  have hr : ({ timeVal := none, ecgVal := some 3 } : Row)
      ∈ ([{ timeVal := some 1, ecgVal := some 2 },
          { timeVal := none, ecgVal := some 3 },
          { timeVal := some 4, ecgVal := some 5 }] : List Row) := by
    simp
  have hpr : parseRow "t" { timeVal := none, ecgVal := some 3 } = none := rfl
  exact ⟨⟨hr, hpr⟩, claim_C8_amended _ "t" _ hr hpr⟩

/-! ### Claim C10 -/

/-- Claim C10: if the stop signal arrives mid-pass — `is_running` is true
for the first `n` iteration checks and false from the `n`-th on — the
per-record loop stops consuming at record `n`, yet every record already
consumed is still delivered: the sent batches are exactly the greedy
chunks of the first `n` read records (full batches during the loop plus
the final partial batch sent after the `break`), their concatenation is
exactly those `n` records (so nothing not yet accumulated is sent), and
every sent batch is nonempty and at most `batch_size` long. -/
theorem claim_C10 (rows : List Row) (now : String) (batchSize n : ℕ)
    (hbs : 1 ≤ batchSize) :
    sentBatches (processDataThread batchSize (fun k => decide (k < n)) (some rows) now)
        = chunksAux batchSize ((readCsvData (some rows) now).take n) []
    ∧ (sentBatches (processDataThread batchSize (fun k => decide (k < n))
        (some rows) now)).join
        = (readCsvData (some rows) now).take n
    ∧ (∀ b ∈ sentBatches (processDataThread batchSize (fun k => decide (k < n))
        (some rows) now), b ≠ [] ∧ b.length ≤ batchSize) := by
  have hmain : sentBatches (processDataThread batchSize (fun k => decide (k < n))
      (some rows) now)
      = chunksAux batchSize ((readCsvData (some rows) now).take n) [] := by
    unfold ECG.ECGDataReceiver.processDataThread
    rw [sentBatches_readE, processLoop_stop, Nat.sub_zero, sentBatches_map_sendE]
  refine ⟨hmain, ?_, ?_⟩
  · rw [hmain, chunksAux_join, List.nil_append]
  · intro b hb
    rw [hmain] at hb
    refine chunksAux_batches batchSize hbs _ [] ?_ b hb
    simpa using hbs

/-- Witness for claim C10: a 5-record log, `batch_size = 2`, stop after
3 records: one full batch of 2 and one final partial batch of 1 are
sent. -/
theorem claim_C10_witness :
    1 ≤ 2
    ∧ (sentBatches (processDataThread 2 (fun k => decide (k < 3))
          (some (demoRows 5)) "t")
          = chunksAux 2 ((readCsvData (some (demoRows 5)) "t").take 3) []
      ∧ (sentBatches (processDataThread 2 (fun k => decide (k < 3))
          (some (demoRows 5)) "t")).join
          = (readCsvData (some (demoRows 5)) "t").take 3
      ∧ (∀ b ∈ sentBatches (processDataThread 2 (fun k => decide (k < 3))
          (some (demoRows 5)) "t"), b ≠ [] ∧ b.length ≤ 2)) :=
  ⟨by norm_num, claim_C10 (demoRows 5) "t" 2 3 (by norm_num)⟩
